import Mathlib

/-!
Verification of the dataclass-argparse adapter (src/typed_argparse.py).

The development shallowly embeds the module: Python values that occur as
field defaults or metadata entries become the inductive type Value, the
annotation types become ArgType with get_origin / get_args mirroring the
typing helpers, dataclass fields become the structure Field, and the
classmethods TypedNamespace.get_parser and
TypedNamespace.get_parser_grouped_by_parents become getParser and
getParserGroupedByParents over those types.  Flag registration is recorded
in a TypedArgumentParser structure (names plus keyword arguments) rather
than executed against the real argparse library, which the specification
treats as an external collaborator.
-/

namespace TypedArgparse

/-- Python values that can appear as a dataclass field default, as a
default-factory result, or as a metadata entry.  requiredArg models the
REQUIRED_ARG marker class, missing models the dataclasses.MISSING
sentinel (the value of field.default when only a factory was given). -/
inductive Value where
  | none
  | bool (b : Bool)
  | int (n : Int)
  | str (s : String)
  | list (xs : List Value)
  | requiredArg
  | missing

mutual

/-- Python repr of a Value (quoting of special characters inside string
literals is elided; the memory address in the repr of the MISSING
sentinel is elided as well). -/
def pyRepr : Value → String
  | Value.none => "None"
  | Value.bool true => "True"
  | Value.bool false => "False"
  | Value.int n => toString n
  | Value.str s => "\x27" ++ s ++ "\x27"
  | Value.list xs => "[" ++ pyReprList xs ++ "]"
  | Value.requiredArg => "<class \x27typed_argparse.REQUIRED_ARG\x27>"
  | Value.missing => "<dataclasses._MISSING_TYPE object>"

/-- Comma-separated reprs of the elements of a Python list. -/
def pyReprList : List Value → String
  | [] => ""
  | [v] => pyRepr v
  | v :: rest => pyRepr v ++ ", " ++ pyReprList rest

end

/-- Python str of a Value: like repr except that a string displays
unquoted (str(x) as used by f-string interpolation and by the
str(...) calls on metadata entries). -/
def pyStr : Value → String
  | Value.str s => s
  | v => pyRepr v

/-- Strip pat from the front of a character list, yielding the remaining
characters on a match. -/
def stripPrefixChars : List Char → List Char → Option (List Char)
  | [], l => some l
  | _ :: _, [] => Option.none
  | p :: ps, c :: cs => if p = c then stripPrefixChars ps cs else Option.none

/-- Fuel-driven worker for pyRemove: scan left to right, removing each
non-overlapping occurrence of pat.  The fuel (the length of the scanned
list at the top call) only makes the recursion structural; every step
consumes at least one character when pat is nonempty. -/
def removeAux (pat : List Char) : Nat → List Char → List Char
  | _, [] => []
  | 0, l => l
  | Nat.succ fuel, c :: cs =>
      match stripPrefixChars pat (c :: cs) with
      | some rem => removeAux pat fuel rem
      | Option.none => c :: removeAux pat fuel cs

/-- Python str.replace(pat, "") as used by the default group-naming
function: delete every non-overlapping occurrence of pat, scanning left
to right.  (Defined directly rather than through String.replace so that
concrete instances evaluate by definitional reduction.) -/
def pyRemove (s pat : String) : String :=
  String.mk (removeAux pat.data s.data.length s.data)

/-- The origin of an annotation type, as returned by typing.get_origin:
the unsubscripted generic class of a parameterized type.  list covers
both builtins.list and typing.List (the code tests the two separately
only because typing.List is needed for Python before 3.8). -/
inductive TypeOrigin where
  | classVar
  | list
  | nonEmptyList
  | other (name : String)
  deriving DecidableEq

/-- An annotation type of a dataclass field.  scalar covers every
non-parameterized type (whose get_origin is None); the remaining
constructors are parameterized types keyed by their origin. -/
inductive ArgType where
  | scalar (name : String)
  | classVar (args : List ArgType)
  | list (args : List ArgType)
  | nonEmptyList (args : List ArgType)
  | param (origin : String) (args : List ArgType)

/-- typing.get_origin on an annotation: None for a plain type, the
generic class for a parameterized one. -/
def get_origin : ArgType → Option TypeOrigin
  | ArgType.scalar _ => Option.none
  | ArgType.classVar _ => some TypeOrigin.classVar
  | ArgType.list _ => some TypeOrigin.list
  | ArgType.nonEmptyList _ => some TypeOrigin.nonEmptyList
  | ArgType.param o _ => some (TypeOrigin.other o)

/-- typing.get_args on an annotation: its type arguments. -/
def get_args : ArgType → List ArgType
  | ArgType.scalar _ => []
  | ArgType.classVar a => a
  | ArgType.list a => a
  | ArgType.nonEmptyList a => a
  | ArgType.param _ a => a

/-- A Python exception as far as the adapter distinguishes them:
TypeError (the class caught around the default-factory call),
NotImplementedError raised on an unsupported annotation (carrying either
the annotation itself or its origin, matching the two raise sites), and
any other exception. -/
inductive PyExc where
  | typeError (msg : String)
  | notImplErrorType (t : ArgType)
  | notImplErrorOrigin (o : TypeOrigin)
  | otherExc (msg : String)

/-- One dataclass field as reported by dataclasses.fields: its name, its
annotation, its static default (Value.missing when only a factory was
supplied), its default factory (Option.none when absent, i.e. when
field.default_factory is the MISSING sentinel, which is not callable and
raises TypeError when called), and its metadata mapping.  A factory is
modelled by its outcome when called with no arguments: either a value or
the exception it raises. -/
structure Field where
  name : String
  type : ArgType
  default : Value
  default_factory : Option (Except PyExc Value)
  metadata : List (String × Value)

/-- Look up a metadata key; absent keys yield the empty string, matching
field.metadata.get(key, "") in the source. -/
def metaGet (md : List (String × Value)) (k : String) : Value :=
  match md.find? (fun p => p.1 == k) with
  | some p => p.2
  | Option.none => Value.str ""

/-- The keyword arguments the adapter can pass to add_argument.  A field
left at its default models the keyword being absent from the kwargs
dict; required is a plain Bool because the code only ever stores True. -/
structure Kwargs where
  help : Option String := Option.none
  metavar : Option String := Option.none
  type : Option ArgType := Option.none
  nargs : Option String := Option.none
  required : Bool := false
  action : Option String := Option.none

/-- One add_argument registration: the positional name strings plus the
keyword arguments. -/
structure AddedArg where
  names : List String
  kwargs : Kwargs

/-- An argument group created by add_argument_group, holding its title
and the arguments registered on it. -/
structure ArgGroup where
  title : Option String
  args : List AddedArg

/-- The parser object returned to the caller: the bound namespace class
(identified by name), the add_help flag it was constructed with, the
arguments added directly on the parser, and its argument groups. -/
structure TypedArgumentParser where
  nsClassName : String
  add_help : Bool
  topArgs : List AddedArg
  groups : List ArgGroup

/-- The standard help flag, as registered by
add_argument(-h, --help, action=help, help=...). -/
def helpArg : AddedArg :=
  { names := ["-h", "--help"],
    kwargs := { action := some "help", help := some "show this help message and exit" } }

/-- Lines 160-163 of the source: try default = field.default_factory()
except TypeError: default = field.default.  Calling an absent factory
(the MISSING sentinel) raises TypeError, and a factory that itself
raises TypeError (for example one of the wrong arity) is caught by the
same handler; both fall back to the static default.  Any other
exception from the factory propagates. -/
def resolveDefault (f : Field) : Except PyExc Value :=
  match f.default_factory with
  | Option.none => Except.ok f.default
  | some (Except.ok v) => Except.ok v
  | some (Except.error (PyExc.typeError _)) => Except.ok f.default
  | some (Except.error e) => Except.error e

/-- Lines 165-172 of the source: start from an empty kwargs dict and
attach help and metavar from the field metadata, each first converted
with str and attached only when the resulting string is nonempty. -/
def metadataKwargs (f : Field) : Kwargs :=
  let help_comment := pyStr (metaGet f.metadata "help")
  let kw : Kwargs := {}
  let kw := if help_comment = "" then kw else { kw with help := some help_comment }
  let mv := pyStr (metaGet f.metadata "metavar")
  if mv = "" then kw else { kw with metavar := some mv }

/-- Lines 174-186 of the source: dispatch on the annotation origin.  A
plain type becomes the value coercion; a list or NonEmptyList with
exactly one type argument attaches the inner type and an arity of + for
NonEmptyList and * otherwise, and with any other argument count raises
NotImplementedError(arg_type); any other origin raises
NotImplementedError(type_origin).  (The ClassVar origin cannot reach
this point from processField, which skips such fields earlier; here it
falls into the final raise arm.) -/
def typeKwargs (f : Field) (kw : Kwargs) : Except PyExc Kwargs :=
  match get_origin f.type with
  | Option.none => Except.ok { kw with type := some f.type }
  | some TypeOrigin.list =>
      match get_args f.type with
      | [t] => Except.ok { kw with type := some t, nargs := some "*" }
      | _ => Except.error (PyExc.notImplErrorType f.type)
  | some TypeOrigin.nonEmptyList =>
      match get_args f.type with
      | [t] => Except.ok { kw with type := some t, nargs := some "+" }
      | _ => Except.error (PyExc.notImplErrorType f.type)
  | some o => Except.error (PyExc.notImplErrorOrigin o)

/-- Lines 188-194 of the source: if the resolved default is REQUIRED_ARG
the flag is marked required; else if it is a bool the flag becomes a
toggle (action store_false when the default is True, store_true when it
is False) and the type keyword is popped; otherwise the literal string
" default: str(default)" is appended to the help keyword (an absent help
keyword reads as the empty string). -/
def applyDefault (default : Value) (kw : Kwargs) : Kwargs :=
  match default with
  | Value.requiredArg => { kw with required := true }
  | Value.bool b =>
      { kw with action := some (if b then "store_false" else "store_true"),
                type := Option.none }
  | v => { kw with help := some (kw.help.getD "" ++ " default: " ++ pyStr v) }

/-- One iteration of the field loop of get_parser (lines 148-196): a
field named h or help registers the standard help flag and stops; a
ClassVar field is skipped; otherwise the default is resolved, the
keyword arguments are assembled, and one flag named by prefixing the
field name with the long-option marker is registered. -/
def processField (f : Field) : Except PyExc (List AddedArg) :=
  if f.name = "h" ∨ f.name = "help" then
    Except.ok [helpArg]
  else if get_origin f.type = some TypeOrigin.classVar then
    Except.ok []
  else
    match resolveDefault f with
    | Except.error e => Except.error e
    | Except.ok default =>
        match typeKwargs f (metadataKwargs f) with
        | Except.error e => Except.error e
        | Except.ok kw =>
            Except.ok [{ names := ["--" ++ f.name], kwargs := applyDefault default kw }]

/-- The field loop of get_parser over the whole field list, concatenating
the registrations; the first exception aborts the loop. -/
def processFields : List Field → Except PyExc (List AddedArg)
  | [] => Except.ok []
  | f :: rest =>
      match processField f with
      | Except.error e => Except.error e
      | Except.ok a =>
          match processFields rest with
          | Except.error e => Except.error e
          | Except.ok r => Except.ok (a ++ r)

/-- A direct base class of a namespace class, as seen through
cls.__bases__: its name, whether it is a TypedNamespace subclass, and
its dataclass fields. -/
structure BaseClass where
  name : String
  isTypedNS : Bool
  fields : List Field

/-- A TypedNamespace subclass: its name, its dataclass fields (as
dataclasses.fields reports them), and its direct base classes. -/
structure NSClass where
  name : String
  fields : List Field
  bases : List BaseClass

/-- View a base class as a namespace class of its own, for invoking
get_parser on it (which reads only the name and the fields). -/
def nsOfBase (b : BaseClass) : NSClass :=
  { name := b.name, fields := b.fields, bases := [] }

/-- TypedNamespace.get_parser (lines 138-198): build a parser bound to
the class, optionally placing all flags in one titled argument group.
When add_help is true the underlying argparse constructor itself
registers the standard help flag on the parser (modelled by seeding
topArgs with it). -/
def getParser (cls : NSClass) (group_title : Option String) (add_help : Bool) :
    Except PyExc TypedArgumentParser :=
  match processFields cls.fields with
  | Except.error e => Except.error e
  | Except.ok argsList =>
      let auto : List AddedArg := if add_help then [helpArg] else []
      match group_title with
      | Option.none =>
          Except.ok { nsClassName := cls.name, add_help := add_help,
                      topArgs := auto ++ argsList, groups := [] }
      | some t =>
          Except.ok { nsClassName := cls.name, add_help := add_help,
                      topArgs := auto, groups := [{ title := some t, args := argsList }] }

/-- The default parent-name-to-group-name function of
get_parser_grouped_by_parents: remove every occurrence of the literal
substring Namespace, then every occurrence of the literal substring
Args. -/
def defaultGroupName (pname : String) : String :=
  pyRemove (pyRemove pname "Namespace") "Args"

/-- Build the parent parsers, one per typed-namespace base, each scoped
under the group name derived from the base class name (line 211-213 of
the source). -/
def getParsersOf (nameFn : String → String) :
    List BaseClass → Except PyExc (List TypedArgumentParser)
  | [] => Except.ok []
  | b :: rest =>
      match getParser (nsOfBase b) (some (nameFn b.name)) false with
      | Except.error e => Except.error e
      | Except.ok p =>
          match getParsersOf nameFn rest with
          | Except.error e => Except.error e
          | Except.ok ps => Except.ok (p :: ps)

/-- All flags of a parser, the directly registered ones followed by
those of its groups in order. -/
def allFlags (p : TypedArgumentParser) : List AddedArg :=
  p.topArgs ++ List.flatten (p.groups.map (fun g => g.args))

/-- TypedNamespace.get_parser_grouped_by_parents (lines 200-220): filter
cls.__bases__ to the TypedNamespace subclasses, build one parser per
such base, and construct the composed parser with add_help False and
those parsers as parents.  Modelled from the spec: the external parsing
engine's parents mechanism copies each parent parser's directly
registered flags and its argument groups, preserving group titles and
order.  When add_help is requested, one standard help flag is then added
inside a fresh group titled Help. -/
def getParserGroupedByParents (cls : NSClass) (add_help : Bool)
    (nameFn : String → String) : Except PyExc TypedArgumentParser :=
  match getParsersOf nameFn (cls.bases.filter (fun b => b.isTypedNS)) with
  | Except.error e => Except.error e
  | Except.ok ps =>
      let base : TypedArgumentParser :=
        { nsClassName := cls.name, add_help := false,
          topArgs := List.flatten (ps.map (fun p => p.topArgs)),
          groups := List.flatten (ps.map (fun p => p.groups)) }
      if add_help then
        Except.ok { base with groups := base.groups ++ [{ title := some "Help", args := [helpArg] }] }
      else
        Except.ok base

/-- A populated namespace instance: its attribute assignments. -/
structure PyObj where
  attrs : List (String × Value)

/-- The value assigned to one field by the no-argument dataclass
constructor cls(): the factory result when a factory is present (its
exceptions, TypeError included, propagate here — nothing catches them in
the generated init), else the static default, a still-missing default
being a missing-required-argument TypeError. -/
def fieldInitValue (f : Field) : Except PyExc Value :=
  match f.default_factory with
  | some r => r
  | Option.none =>
      match f.default with
      | Value.missing =>
          Except.error (PyExc.typeError ("missing required argument: " ++ f.name))
      | v => Except.ok v

/-- The attribute list built by the generated dataclass init over a field
list; ClassVar pseudo-fields contribute no instance attribute. -/
def mkAttrs : List Field → Except PyExc (List (String × Value))
  | [] => Except.ok []
  | f :: rest =>
      if get_origin f.type = some TypeOrigin.classVar then mkAttrs rest
      else
        match fieldInitValue f with
        | Except.error e => Except.error e
        | Except.ok v =>
            match mkAttrs rest with
            | Except.error e => Except.error e
            | Except.ok a => Except.ok ((f.name, v) :: a)

/-- The no-argument construction cls() of the namespace dataclass. -/
def mkInstance (cls : NSClass) : Except PyExc PyObj :=
  match mkAttrs cls.fields with
  | Except.error e => Except.error e
  | Except.ok a => Except.ok { attrs := a }

/-- Modelled from the spec: the underlying parsing engine (argparse) is
an external collaborator not re-specified by the repository.  On an
empty token sequence it recognizes no flag, so it reports a user-facing
usage error when any registered flag is mandatory and otherwise returns
the supplied namespace instance unmutated (every attribute keeps the
declared default it was constructed with). -/
def engineParseEmpty (p : TypedArgumentParser) (ns : PyObj) : Except String PyObj :=
  if (allFlags p).any (fun a => a.kwargs.required) then
    Except.error "the following arguments are required"
  else
    Except.ok ns

/-- What a parse call can come to at the process level: a populated
instance, or the usage-error exit of the engine. -/
inductive ParseOutcome where
  | ok (ns : PyObj)
  | usageExit (msg : String)

/-- TypedArgumentParser.parse_args (lines 27-31) applied to an empty
token sequence with no pre-built namespace: build the parser for the
class, materialize the default instance via the no-argument constructor,
and hand both to the engine. -/
def parseArgsOnEmpty (cls : NSClass) (group_title : Option String) (add_help : Bool) :
    Except PyExc ParseOutcome :=
  match getParser cls group_title add_help with
  | Except.error e => Except.error e
  | Except.ok p =>
      match mkInstance cls with
      | Except.error e => Except.error e
      | Except.ok ns =>
          match engineParseEmpty p ns with
          | Except.ok r => Except.ok (ParseOutcome.ok r)
          | Except.error m => Except.ok (ParseOutcome.usageExit m)

/-! Helper lemmas about the embedded operations. -/

/-- Sanity check: the default naming removes the literal substrings. -/
theorem defaultGroupName_ex1 : defaultGroupName "ArgsA" = "A" := rfl

/-- Sanity check: both substrings are removed wherever they occur. -/
theorem defaultGroupName_ex2 : defaultGroupName "MyNamespaceArgs" = "My" := rfl

/-- processField on a field that is neither help-named nor ClassVar runs
default resolution, kwargs assembly and registration. -/
theorem processField_eq (f : Field)
    (hn : ¬(f.name = "h" ∨ f.name = "help"))
    (hcv : ¬ get_origin f.type = some TypeOrigin.classVar) :
    processField f =
      (match resolveDefault f with
       | Except.error e => Except.error e
       | Except.ok d =>
           match typeKwargs f (metadataKwargs f) with
           | Except.error e => Except.error e
           | Except.ok kw =>
               Except.ok [{ names := ["--" ++ f.name], kwargs := applyDefault d kw }]) := by
  unfold processField
  rw [if_neg hn, if_neg hcv]

/-- typeKwargs only writes the type and nargs keywords. -/
theorem typeKwargs_preserves (f : Field) (kw kw' : Kwargs)
    (h : typeKwargs f kw = Except.ok kw') :
    kw'.help = kw.help ∧ kw'.metavar = kw.metavar ∧ kw'.required = kw.required ∧
      kw'.action = kw.action := by
  unfold typeKwargs at h
  split at h
  · injection h with h; subst h; exact ⟨rfl, rfl, rfl, rfl⟩
  · split at h
    · injection h with h; subst h; exact ⟨rfl, rfl, rfl, rfl⟩
    · exact Except.noConfusion h
  · split at h
    · injection h with h; subst h; exact ⟨rfl, rfl, rfl, rfl⟩
    · exact Except.noConfusion h
  · exact Except.noConfusion h

/-- The help keyword assembled from metadata: the str of the entry when
that is nonempty, absent otherwise. -/
theorem metadataKwargs_help (f : Field) :
    (metadataKwargs f).help =
      (if pyStr (metaGet f.metadata "help") = "" then Option.none
       else some (pyStr (metaGet f.metadata "help"))) := by
  unfold metadataKwargs
  dsimp only
  split <;> split <;> rfl

/-- The metavar keyword assembled from metadata: the str of the entry
when that is nonempty, absent otherwise. -/
theorem metadataKwargs_metavar (f : Field) :
    (metadataKwargs f).metavar =
      (if pyStr (metaGet f.metadata "metavar") = "" then Option.none
       else some (pyStr (metaGet f.metadata "metavar"))) := by
  unfold metadataKwargs
  dsimp only
  split <;> split <;> rfl

/-- Reading the assembled help keyword with an empty-string fallback
gives exactly the str of the metadata entry. -/
theorem metadataKwargs_help_getD (f : Field) :
    (metadataKwargs f).help.getD "" = pyStr (metaGet f.metadata "help") := by
  rw [metadataKwargs_help]
  split
  · rename_i h
    exact h.symm
  · rfl

/-- Metadata assembly leaves the other keywords absent. -/
theorem metadataKwargs_rest (f : Field) :
    (metadataKwargs f).required = false ∧ (metadataKwargs f).action = Option.none ∧
      (metadataKwargs f).type = Option.none ∧ (metadataKwargs f).nargs = Option.none := by
  unfold metadataKwargs
  dsimp only
  split <;> split <;> exact ⟨rfl, rfl, rfl, rfl⟩

/-- applyDefault never touches the nargs keyword. -/
theorem applyDefault_nargs (v : Value) (kw : Kwargs) :
    (applyDefault v kw).nargs = kw.nargs := by
  cases v <;> rfl

/-- applyDefault never touches the metavar keyword. -/
theorem applyDefault_metavar (v : Value) (kw : Kwargs) :
    (applyDefault v kw).metavar = kw.metavar := by
  cases v <;> rfl

/-- A non-required default leaves the required keyword as assembled. -/
theorem applyDefault_required (v : Value) (kw : Kwargs) (hv : v ≠ Value.requiredArg) :
    (applyDefault v kw).required = kw.required := by
  cases v with
  | requiredArg => exact absurd rfl hv
  | _ => rfl

/-- A non-boolean default leaves the type keyword as assembled. -/
theorem applyDefault_type_nonbool (v : Value) (kw : Kwargs) (hv : ∀ b, v ≠ Value.bool b) :
    (applyDefault v kw).type = kw.type := by
  cases v with
  | bool b => exact absurd rfl (hv b)
  | _ => rfl

/-- The required and the boolean branch of applyDefault leave the help
keyword as assembled. -/
theorem applyDefault_help_untouched (v : Value) (kw : Kwargs)
    (hv : v = Value.requiredArg ∨ ∃ b, v = Value.bool b) :
    (applyDefault v kw).help = kw.help := by
  rcases hv with h | ⟨b, h⟩ <;> subst h <;> rfl

/-- A successful construction of the default instance value implies the
same resolved default in the parser-construction path. -/
theorem resolveDefault_of_init (f : Field) (v : Value)
    (h : fieldInitValue f = Except.ok v) :
    resolveDefault f = Except.ok v := by
  unfold fieldInitValue at h
  unfold resolveDefault
  cases hdf : f.default_factory with
  | none =>
      rw [hdf] at h
      cases hd : f.default <;> rw [hd] at h <;>
        first
        | exact Except.noConfusion h
        | exact h
  | some r =>
      rw [hdf] at h
      subst h
      rfl

/-- If some field of the list fails to translate, the whole field loop
fails (with the first failing field's exception). -/
theorem processFields_error_of_mem (fs : List Field) (f : Field) (e0 : PyExc)
    (hmem : f ∈ fs) (hf : processField f = Except.error e0) :
    ∃ e, processFields fs = Except.error e := by
  induction fs with
  | nil => cases hmem
  | cons g rest ih =>
      cases hmem with
      | head =>
          refine ⟨e0, ?_⟩
          unfold processFields
          rw [hf]
      | tail _ hmem' =>
          obtain ⟨e, he⟩ := ih hmem'
          unfold processFields
          cases hpg : processField g with
          | error eg => exact ⟨eg, rfl⟩
          | ok a => rw [he]; exact ⟨e, rfl⟩

/-! Claim C1. -/

/-- A field whose default factory raises a wrong-arity TypeError. -/
def c1fld : Field :=
  { name := "x", type := ArgType.scalar "int", default := Value.missing,
    default_factory := some (Except.error (PyExc.typeError "takes 1 positional argument")),
    metadata := [] }

/-- C1 counterexample: for a field whose default factory raises a
wrong-arity TypeError, get_parser does not propagate the failure; the
except-TypeError handler swallows it, the static default (the MISSING
sentinel) is used, and parser construction completes with a flag whose
help text even stringifies the sentinel. -/
theorem c1_counterexample :
    getParser { name := "C1", fields := [c1fld], bases := [] } Option.none false =
      Except.ok
        { nsClassName := "C1", add_help := false,
          topArgs := [{ names := ["--x"],
                        kwargs := { help := some " default: <dataclasses._MISSING_TYPE object>",
                                    type := some (ArgType.scalar "int") } }],
          groups := [] } := rfl

/-- C1 (amended): a default factory failing with TypeError (wrong
arity/signature) during parser construction is caught by the
except-TypeError handler around the factory call; the field falls back
to its static default and, for a supported annotation, its flag is still
registered, so parser construction completes instead of propagating the
failure.  (Only a non-TypeError factory failure propagates.) -/
theorem c1_typeerror_factory_caught (f : Field) (msg : String)
    (hf : f.default_factory = some (Except.error (PyExc.typeError msg)))
    (ht : get_origin f.type = Option.none) :
    resolveDefault f = Except.ok f.default ∧
    ∃ flags, processField f = Except.ok flags := by
  have hres : resolveDefault f = Except.ok f.default := by
    unfold resolveDefault
    rw [hf]
  refine ⟨hres, ?_⟩
  by_cases hn : f.name = "h" ∨ f.name = "help"
  · refine ⟨[helpArg], ?_⟩
    unfold processField
    rw [if_pos hn]
  · have hcv : ¬ get_origin f.type = some TypeOrigin.classVar := by
      rw [ht]
      intro hc
      exact Option.noConfusion hc
    rw [processField_eq f hn hcv, hres]
    unfold typeKwargs
    rw [ht]
    exact ⟨_, rfl⟩

/-- C1 witness: the caught-TypeError fallback evaluated on c1fld. -/
theorem c1_typeerror_factory_caught_witness :
    resolveDefault c1fld = Except.ok c1fld.default ∧
    ∃ flags, processField c1fld = Except.ok flags :=
  c1_typeerror_factory_caught c1fld "takes 1 positional argument" rfl rfl

/-! Claim C2. -/

/-- A field with a boolean default and metadata help text. -/
def c2fld : Field :=
  { name := "b", type := ArgType.scalar "bool", default := Value.bool false,
    default_factory := Option.none, metadata := [("help", Value.str "toggle b")] }

/-- C2 counterexample: for the boolean-defaulted field c2fld the claim
asserts the registered help text is the metadata help with the literal
string " default: False" appended; the actual registered help text is
the metadata help alone, because the boolean toggle branch skips the
append. -/
theorem c2_counterexample :
    processField c2fld =
      Except.ok [{ names := ["--b"],
                   kwargs := { help := some "toggle b", action := some "store_true" } }] ∧
    ¬ (some "toggle b" : Option String) =
        some ("toggle b" ++ " default: " ++ pyStr (Value.bool false)) := by
  constructor
  · rfl
  · decide

/-- C2 (amended): for every non-help-named, non-ClassVar field whose
resolved default is neither the required marker nor a boolean, the
registered flag's help text is the (possibly empty) metadata help with
the literal string " default: " and the str of the default appended;
boolean-defaulted fields become toggles whose help text is left alone. -/
theorem c2_default_appended (f : Field) (v : Value)
    (hn : ¬(f.name = "h" ∨ f.name = "help"))
    (hcv : ¬ get_origin f.type = some TypeOrigin.classVar)
    (hres : resolveDefault f = Except.ok v)
    (hreq : v ≠ Value.requiredArg)
    (hb : ∀ b, v ≠ Value.bool b)
    (flags : List AddedArg)
    (hp : processField f = Except.ok flags) :
    ∃ kw, flags = [{ names := ["--" ++ f.name], kwargs := kw }] ∧
      kw.help = some (pyStr (metaGet f.metadata "help") ++ " default: " ++ pyStr v) := by
  rw [processField_eq f hn hcv, hres] at hp
  cases htk : typeKwargs f (metadataKwargs f) with
  | error e =>
      rw [htk] at hp
      exact Except.noConfusion hp
  | ok kw0 =>
      rw [htk] at hp
      injection hp with hp
      refine ⟨applyDefault v kw0, hp.symm, ?_⟩
      have hh : kw0.help.getD "" = pyStr (metaGet f.metadata "help") := by
        rw [(typeKwargs_preserves f _ kw0 htk).1, metadataKwargs_help_getD]
      cases v with
      | requiredArg => exact absurd rfl hreq
      | bool b => exact absurd rfl (hb b)
      | none => rw [show (applyDefault Value.none kw0).help =
            some (kw0.help.getD "" ++ " default: " ++ pyStr Value.none) from rfl, hh]
      | int n => rw [show (applyDefault (Value.int n) kw0).help =
            some (kw0.help.getD "" ++ " default: " ++ pyStr (Value.int n)) from rfl, hh]
      | str s => rw [show (applyDefault (Value.str s) kw0).help =
            some (kw0.help.getD "" ++ " default: " ++ pyStr (Value.str s)) from rfl, hh]
      | list xs => rw [show (applyDefault (Value.list xs) kw0).help =
            some (kw0.help.getD "" ++ " default: " ++ pyStr (Value.list xs)) from rfl, hh]
      | missing => rw [show (applyDefault Value.missing kw0).help =
            some (kw0.help.getD "" ++ " default: " ++ pyStr Value.missing) from rfl, hh]

/-- A scalar field with a concrete non-boolean default and help text. -/
def c2wfld : Field :=
  { name := "a", type := ArgType.scalar "int", default := Value.int 1,
    default_factory := Option.none, metadata := [("help", Value.str "doc")] }

/-- The flag list get_parser registers for c2wfld. -/
def c2wflags : List AddedArg :=
  [{ names := ["--a"],
     kwargs := { help := some "doc default: 1", type := some (ArgType.scalar "int") } }]

/-- C2 witness: the default-appending branch evaluated on c2wfld. -/
theorem c2_default_appended_witness :
    ∃ kw, c2wflags = [{ names := ["--" ++ c2wfld.name], kwargs := kw }] ∧
      kw.help = some (pyStr (metaGet c2wfld.metadata "help") ++ " default: " ++
        pyStr (Value.int 1)) :=
  c2_default_appended c2wfld (Value.int 1) (by decide) (by decide) rfl
    (fun h => Value.noConfusion h) (fun b h => Value.noConfusion h) c2wflags rfl

/-! Claim C3. -/

/-- C3 (confirmed): a field whose resolved default is a boolean is
registered as a zero-argument toggle: the action is store_false when the
default is True and store_true when it is False, and the type coercion
keyword is popped. -/
theorem c3_bool_toggle (f : Field) (b : Bool)
    (hn : ¬(f.name = "h" ∨ f.name = "help"))
    (hcv : ¬ get_origin f.type = some TypeOrigin.classVar)
    (hres : resolveDefault f = Except.ok (Value.bool b))
    (flags : List AddedArg)
    (hp : processField f = Except.ok flags) :
    ∃ kw, flags = [{ names := ["--" ++ f.name], kwargs := kw }] ∧
      kw.action = some (if b then "store_false" else "store_true") ∧
      kw.type = Option.none := by
  rw [processField_eq f hn hcv, hres] at hp
  cases htk : typeKwargs f (metadataKwargs f) with
  | error e =>
      rw [htk] at hp
      exact Except.noConfusion hp
  | ok kw0 =>
      rw [htk] at hp
      injection hp with hp
      exact ⟨applyDefault (Value.bool b) kw0, hp.symm, rfl, rfl⟩

/-- A boolean field with default True. -/
def c3fld : Field :=
  { name := "flag", type := ArgType.scalar "bool", default := Value.bool true,
    default_factory := Option.none, metadata := [] }

/-- The flag list get_parser registers for c3fld. -/
def c3flags : List AddedArg :=
  [{ names := ["--flag"], kwargs := { action := some "store_false" } }]

/-- C3 witness: the toggle translation evaluated on c3fld. -/
theorem c3_bool_toggle_witness :
    ∃ kw, c3flags = [{ names := ["--" ++ c3fld.name], kwargs := kw }] ∧
      kw.action = some (if true then "store_false" else "store_true") ∧
      kw.type = Option.none :=
  c3_bool_toggle c3fld true (by decide) (by decide) rfl c3flags rfl

/-! Claim C4. -/

/-- A list-typed field whose (legal, if odd) default is the boolean
False. -/
def c4fld : Field :=
  { name := "xs", type := ArgType.list [ArgType.scalar "int"], default := Value.bool false,
    default_factory := Option.none, metadata := [] }

/-- C4 counterexample: c4fld has a sequence-of-scalar annotation with
exactly one type argument, yet no value coercion function is attached to
its flag: the boolean-default toggle branch pops the type keyword after
the sequence dispatch set it (the arity keyword survives). -/
theorem c4_counterexample :
    processField c4fld =
      Except.ok [{ names := ["--xs"],
                   kwargs := { nargs := some "*", action := some "store_true" } }] ∧
    ({ nargs := some "*", action := some "store_true" } : Kwargs).type = Option.none :=
  ⟨rfl, rfl⟩

/-- C4 (amended): for every non-help-named field whose annotation is a
sequence-of-scalar type with exactly one type argument and whose default
resolution succeeds, the flag's arity is set to one-or-more for
NonEmptyList and zero-or-more for the plain sequence; the inner scalar
type is attached as the value coercion function unless the resolved
default is a boolean, in which case the toggle branch removes it. -/
theorem c4_seq_coercion_arity (f : Field) (t : ArgType) (v : Value)
    (hn : ¬(f.name = "h" ∨ f.name = "help"))
    (ho : get_origin f.type = some TypeOrigin.list ∨
          get_origin f.type = some TypeOrigin.nonEmptyList)
    (ha : get_args f.type = [t])
    (hres : resolveDefault f = Except.ok v) :
    ∃ kw, processField f = Except.ok [{ names := ["--" ++ f.name], kwargs := kw }] ∧
      kw.nargs = some (if get_origin f.type = some TypeOrigin.nonEmptyList then "+" else "*") ∧
      ((∀ b, v ≠ Value.bool b) → kw.type = some t) ∧
      (∀ b, v = Value.bool b → kw.type = Option.none) := by
  have hcv : ¬ get_origin f.type = some TypeOrigin.classVar := by
    rcases ho with h | h <;> rw [h] <;> intro hc <;> injection hc with hc <;>
      exact TypeOrigin.noConfusion hc
  have htk : typeKwargs f (metadataKwargs f) =
      Except.ok
        { metadataKwargs f with
          type := some t
          nargs := some (if get_origin f.type = some TypeOrigin.nonEmptyList
                         then "+" else "*") } := by
    unfold typeKwargs
    rcases ho with h | h <;> rw [h, ha] <;> simp
  rw [processField_eq f hn hcv, hres, htk]
  refine ⟨_, rfl, ?_, ?_, ?_⟩
  · rw [applyDefault_nargs]
  · intro hb
    rw [applyDefault_type_nonbool v _ hb]
  · intro b hb
    subst hb
    rfl

/-- A NonEmptyList-typed field with a list default from its factory. -/
def c4wfld : Field :=
  { name := "c", type := ArgType.nonEmptyList [ArgType.scalar "int"],
    default := Value.missing,
    default_factory := some (Except.ok (Value.list [Value.int 1])), metadata := [] }

/-- C4 witness: the sequence translation evaluated on c4wfld. -/
theorem c4_seq_coercion_arity_witness :
    ∃ kw, processField c4wfld = Except.ok [{ names := ["--" ++ c4wfld.name], kwargs := kw }] ∧
      kw.nargs = some (if get_origin c4wfld.type = some TypeOrigin.nonEmptyList
                       then "+" else "*") ∧
      ((∀ b, Value.list [Value.int 1] ≠ Value.bool b) → kw.type = some (ArgType.scalar "int")) ∧
      (∀ b, Value.list [Value.int 1] = Value.bool b → kw.type = Option.none) :=
  c4_seq_coercion_arity c4wfld (ArgType.scalar "int") (Value.list [Value.int 1])
    (by decide) (Or.inr rfl) rfl rfl

/-! Claim C5. -/

/-- C5 (confirmed): the per-field dispatch of get_parser: a help-named
field registers the standard help flag and nothing else; a ClassVar
field registers nothing; any other field that translates successfully
registers exactly one flag named by prefixing the field name with the
long-option marker. -/
theorem c5_field_dispatch (f : Field) :
    ((f.name = "h" ∨ f.name = "help") → processField f = Except.ok [helpArg]) ∧
    (¬(f.name = "h" ∨ f.name = "help") → get_origin f.type = some TypeOrigin.classVar →
      processField f = Except.ok []) ∧
    (¬(f.name = "h" ∨ f.name = "help") → ¬ get_origin f.type = some TypeOrigin.classVar →
      ∀ flags, processField f = Except.ok flags →
        ∃ kw, flags = [{ names := ["--" ++ f.name], kwargs := kw }]) := by
  refine ⟨?_, ?_, ?_⟩
  · intro h
    unfold processField
    rw [if_pos h]
  · intro hn hcv
    unfold processField
    rw [if_neg hn, if_pos hcv]
  · intro hn hcv flags hp
    rw [processField_eq f hn hcv] at hp
    cases hres : resolveDefault f with
    | error e =>
        rw [hres] at hp
        exact Except.noConfusion hp
    | ok v =>
        rw [hres] at hp
        cases htk : typeKwargs f (metadataKwargs f) with
        | error e =>
            rw [htk] at hp
            exact Except.noConfusion hp
        | ok kw0 =>
            rw [htk] at hp
            injection hp with hp
            exact ⟨_, hp.symm⟩

/-- A field named help (its annotation notwithstanding). -/
def c5HelpFld : Field :=
  { name := "help", type := ArgType.scalar "str", default := Value.str "",
    default_factory := Option.none, metadata := [] }

/-- A ClassVar field. -/
def c5CVFld : Field :=
  { name := "a", type := ArgType.classVar [ArgType.scalar "int"], default := Value.int 1,
    default_factory := Option.none, metadata := [] }

/-- An ordinary scalar field. -/
def c5AFld : Field :=
  { name := "a", type := ArgType.scalar "int", default := Value.int 1,
    default_factory := Option.none, metadata := [] }

/-- The flag list get_parser registers for c5AFld. -/
def c5AFlags : List AddedArg :=
  [{ names := ["--a"],
     kwargs := { help := some " default: 1", type := some (ArgType.scalar "int") } }]

/-- C5 witness: the three dispatch arms evaluated on concrete fields. -/
theorem c5_field_dispatch_witness :
    processField c5HelpFld = Except.ok [helpArg] ∧
    processField c5CVFld = Except.ok [] ∧
    ∃ kw, c5AFlags = [{ names := ["--" ++ c5AFld.name], kwargs := kw }] := by
  refine ⟨(c5_field_dispatch c5HelpFld).1 (Or.inr rfl),
          (c5_field_dispatch c5CVFld).2.1 (by decide) rfl,
          (c5_field_dispatch c5AFld).2.2 (by decide) (by decide) c5AFlags rfl⟩

/-! Claim C6. -/

/-- A field named help whose annotation is an unsupported parameterized
type. -/
def c6fld : Field :=
  { name := "help", type := ArgType.param "dict" [ArgType.scalar "str", ArgType.scalar "int"],
    default := Value.missing, default_factory := Option.none, metadata := [] }

/-- C6 counterexample: a field with an unsupported parameterized
annotation that is named with the help-flag alias does not raise: the
help-alias arm runs first and registers the standard help flag, so
get_parser completes. -/
theorem c6_counterexample :
    getParser { name := "C6", fields := [c6fld], bases := [] } Option.none false =
      Except.ok
        { nsClassName := "C6", add_help := false, topArgs := [helpArg], groups := [] } := rfl

/-- C6 (amended): for every field not named with the help-flag alias
whose annotation is parameterized but neither ClassVar nor a supported
sequence shape with exactly one type argument, and whose default
resolution does not itself fail, the field translation raises a
NotImplementedError, and get_parser on any class containing the field
fails during parser construction, before any tokens are parsed. -/
theorem c6_unsupported_raises (f : Field) (o : TypeOrigin) (v : Value)
    (hn : ¬(f.name = "h" ∨ f.name = "help"))
    (ho : get_origin f.type = some o)
    (hcv : o ≠ TypeOrigin.classVar)
    (hshape : (o = TypeOrigin.list ∨ o = TypeOrigin.nonEmptyList) →
      (get_args f.type).length ≠ 1)
    (hres : resolveDefault f = Except.ok v) :
    (processField f = Except.error (PyExc.notImplErrorType f.type) ∨
     processField f = Except.error (PyExc.notImplErrorOrigin o)) ∧
    (∀ cls gt ah, f ∈ cls.fields → ∃ e, getParser cls gt ah = Except.error e) := by
  have hcv' : ¬ get_origin f.type = some TypeOrigin.classVar := by
    rw [ho]
    intro hc
    injection hc with hc
    exact hcv hc
  have hpf : processField f = Except.error (PyExc.notImplErrorType f.type) ∨
      processField f = Except.error (PyExc.notImplErrorOrigin o) := by
    rw [processField_eq f hn hcv', hres]
    have htk : typeKwargs f (metadataKwargs f) = Except.error (PyExc.notImplErrorType f.type) ∨
        typeKwargs f (metadataKwargs f) = Except.error (PyExc.notImplErrorOrigin o) := by
      unfold typeKwargs
      cases o with
      | classVar => exact absurd rfl hcv
      | list =>
          have hlen := hshape (Or.inl rfl)
          rw [ho]
          cases hargs : get_args f.type with
          | nil => exact Or.inl rfl
          | cons t rest =>
              cases rest with
              | nil => exact absurd (by simp [hargs]) hlen
              | cons u rest' => exact Or.inl rfl
      | nonEmptyList =>
          have hlen := hshape (Or.inr rfl)
          rw [ho]
          cases hargs : get_args f.type with
          | nil => exact Or.inl rfl
          | cons t rest =>
              cases rest with
              | nil => exact absurd (by simp [hargs]) hlen
              | cons u rest' => exact Or.inl rfl
      | other s =>
          rw [ho]
          exact Or.inr rfl
    rcases htk with h | h <;> rw [h]
    · exact Or.inl rfl
    · exact Or.inr rfl
  refine ⟨hpf, ?_⟩
  intro cls gt ah hmem
  have herr : ∃ e, processFields cls.fields = Except.error e := by
    rcases hpf with h | h
    · exact processFields_error_of_mem cls.fields f _ hmem h
    · exact processFields_error_of_mem cls.fields f _ hmem h
  obtain ⟨e, he⟩ := herr
  refine ⟨e, ?_⟩
  unfold getParser
  rw [he]

/-- A field with a two-argument dict annotation. -/
def c6wfld : Field :=
  { name := "m", type := ArgType.param "dict" [ArgType.scalar "str", ArgType.scalar "int"],
    default := Value.missing, default_factory := Option.none, metadata := [] }

/-- A class containing c6wfld. -/
def c6wcls : NSClass := { name := "C6W", fields := [c6wfld], bases := [] }

/-- C6 witness: the NotImplementedError path evaluated on c6wfld. -/
theorem c6_unsupported_raises_witness :
    (processField c6wfld = Except.error (PyExc.notImplErrorType c6wfld.type) ∨
     processField c6wfld = Except.error (PyExc.notImplErrorOrigin (TypeOrigin.other "dict"))) ∧
    ∃ e, getParser c6wcls Option.none false = Except.error e := by
  have h := c6_unsupported_raises c6wfld (TypeOrigin.other "dict") Value.missing
    (by decide) rfl (by decide) (by decide) rfl
  exact ⟨h.1, h.2 c6wcls Option.none false (List.mem_singleton.mpr rfl)⟩

/-- A parser built by get_parser under a group title has no directly
registered flag, was constructed without the automatic help flag, and
carries exactly one group with that title. -/
theorem getParser_titled (c : NSClass) (t : String) (p : TypedArgumentParser)
    (hp : getParser c (some t) false = Except.ok p) :
    p.add_help = false ∧ p.topArgs = [] ∧
    ∃ args, p.groups = [{ title := some t, args := args }] := by
  unfold getParser at hp
  cases h : processFields c.fields with
  | error e =>
      rw [h] at hp
      exact Except.noConfusion hp
  | ok l =>
      rw [h] at hp
      injection hp with hp
      subst hp
      exact ⟨rfl, rfl, l, rfl⟩

/-- Every parser built for a typed base carries no direct flag and no
automatic help flag, and the group titles across the parent parsers are
exactly the derived group names, in order. -/
theorem getParsersOf_spec (nameFn : String → String) (bs : List BaseClass)
    (ps : List TypedArgumentParser) (h : getParsersOf nameFn bs = Except.ok ps) :
    (∀ q ∈ ps, q.topArgs = [] ∧ q.add_help = false) ∧
    List.map (fun g => g.title) (List.flatten (ps.map (fun q => q.groups))) =
      bs.map (fun b => some (nameFn b.name)) := by
  induction bs generalizing ps with
  | nil =>
      unfold getParsersOf at h
      injection h with h
      subst h
      exact ⟨fun q hq => absurd hq (List.not_mem_nil q), rfl⟩
  | cons b rest ih =>
      unfold getParsersOf at h
      cases hq : getParser (nsOfBase b) (some (nameFn b.name)) false with
      | error e =>
          rw [hq] at h
          exact Except.noConfusion h
      | ok p =>
          rw [hq] at h
          cases hr : getParsersOf nameFn rest with
          | error e =>
              rw [hr] at h
              exact Except.noConfusion h
          | ok ps' =>
              rw [hr] at h
              injection h with h
              subst h
              obtain ⟨h1, h2⟩ := ih ps' hr
              obtain ⟨hah, htop, args, hg⟩ := getParser_titled (nsOfBase b) (nameFn b.name) p hq
              constructor
              · intro q hq'
                cases hq' with
                | head => exact ⟨htop, hah⟩
                | tail _ hmem => exact h1 q hmem
              · simp only [List.map_cons, List.flatten_cons, List.map_append, hg, h2]
                rfl

/-! Claim C7. -/

/-- C7 (confirmed): the grouped composer enumerates exactly the
typed-namespace direct bases, produces one group per such base titled by
the default naming rule (the base name with the substrings Namespace and
Args removed), constructs the composed parser without an automatic help
flag, and, when the help flag is requested, appends exactly one group
titled Help holding the standard help flag. -/
theorem c7_grouped_structure (cls : NSClass) (ah : Bool) (p : TypedArgumentParser)
    (hp : getParserGroupedByParents cls ah defaultGroupName = Except.ok p) :
    p.add_help = false ∧ p.topArgs = [] ∧
    ∃ ps, getParsersOf defaultGroupName (cls.bases.filter (fun b => b.isTypedNS)) =
        Except.ok ps ∧
      p.groups = List.flatten (ps.map (fun q => q.groups)) ++
        (if ah then [{ title := some "Help", args := [helpArg] }] else []) ∧
      List.map (fun g => g.title) (List.flatten (ps.map (fun q => q.groups))) =
        (cls.bases.filter (fun b => b.isTypedNS)).map
          (fun b => some (defaultGroupName b.name)) := by
  unfold getParserGroupedByParents at hp
  cases hops : getParsersOf defaultGroupName (cls.bases.filter (fun b => b.isTypedNS)) with
  | error e =>
      rw [hops] at hp
      exact Except.noConfusion hp
  | ok ps =>
      rw [hops] at hp
      obtain ⟨hq, hmap⟩ := getParsersOf_spec defaultGroupName _ ps hops
      have htop : List.flatten (ps.map (fun q => q.topArgs)) = [] := by
        refine List.flatten_eq_nil_iff.mpr ?_
        intro l hl
        obtain ⟨q, hqm, rfl⟩ := List.mem_map.mp hl
        exact (hq q hqm).1
      cases ah with
      | false =>
          dsimp only at hp
          rw [if_neg (by simp)] at hp
          injection hp with hp
          subst hp
          exact ⟨rfl, htop, ps, rfl, by simp, hmap⟩
      | true =>
          dsimp only at hp
          rw [if_pos rfl] at hp
          injection hp with hp
          subst hp
          exact ⟨rfl, htop, ps, rfl, by simp, hmap⟩

/-- A typed base named ArgsA with one int field. -/
def c7base : BaseClass :=
  { name := "ArgsA", isTypedNS := true,
    fields := [{ name := "a", type := ArgType.scalar "int", default := Value.int 1,
                 default_factory := Option.none, metadata := [] }] }

/-- A non-typed base that the composer must ignore. -/
def c7other : BaseClass := { name := "Mixin", isTypedNS := false, fields := [] }

/-- A child class with one typed and one non-typed base. -/
def c7cls : NSClass := { name := "Args", fields := [], bases := [c7base, c7other] }

/-- The flag registered for field a of the typed base. -/
def c7aArg : AddedArg :=
  { names := ["--a"],
    kwargs := { help := some " default: 1", type := some (ArgType.scalar "int") } }

/-- The composed parser for c7cls with the help flag requested. -/
def c7p : TypedArgumentParser :=
  { nsClassName := "Args", add_help := false,
    topArgs := [],
    groups := [{ title := some "A", args := [c7aArg] },
               { title := some "Help", args := [helpArg] }] }

/-- C7 witness: the grouped-composer structure evaluated on c7cls. -/
theorem c7_grouped_structure_witness :
    c7p.add_help = false ∧ c7p.topArgs = [] ∧
    ∃ ps, getParsersOf defaultGroupName (c7cls.bases.filter (fun b => b.isTypedNS)) =
        Except.ok ps ∧
      c7p.groups = List.flatten (ps.map (fun q => q.groups)) ++
        (if true then [{ title := some "Help", args := [helpArg] }] else []) ∧
      List.map (fun g => g.title) (List.flatten (ps.map (fun q => q.groups))) =
        (c7cls.bases.filter (fun b => b.isTypedNS)).map
          (fun b => some (defaultGroupName b.name)) :=
  c7_grouped_structure c7cls true c7p rfl

/-- A scalar field with a usable non-required default registers exactly
its flag, and that flag is not mandatory. -/
theorem processField_not_required (f : Field)
    (hscalar : get_origin f.type = Option.none)
    (v : Value) (hinit : fieldInitValue f = Except.ok v) (hv : v ≠ Value.requiredArg) :
    ∃ flags, processField f = Except.ok flags ∧ ∀ a ∈ flags, a.kwargs.required = false := by
  have hres := resolveDefault_of_init f v hinit
  by_cases hn : f.name = "h" ∨ f.name = "help"
  · refine ⟨[helpArg], ?_, ?_⟩
    · unfold processField
      rw [if_pos hn]
    · intro a ha
      cases ha with
      | head => rfl
      | tail _ h' => cases h'
  · have hcv : ¬ get_origin f.type = some TypeOrigin.classVar := by
      rw [hscalar]
      intro hc
      exact Option.noConfusion hc
    have htk : typeKwargs f (metadataKwargs f) =
        Except.ok { metadataKwargs f with type := some f.type } := by
      unfold typeKwargs
      rw [hscalar]
    rw [processField_eq f hn hcv, hres, htk]
    refine ⟨_, rfl, ?_⟩
    intro a ha
    cases ha with
    | head =>
        show (applyDefault v { metadataKwargs f with type := some f.type }).required = false
        rw [applyDefault_required v _ hv]
        exact (metadataKwargs_rest f).1
    | tail _ h' => cases h'

/-- Over a whole field list of scalar fields with usable non-required
defaults, the field loop succeeds and registers no mandatory flag. -/
theorem processFields_not_required (fs : List Field)
    (h : ∀ f ∈ fs, get_origin f.type = Option.none ∧
         ∃ v, fieldInitValue f = Except.ok v ∧ v ≠ Value.requiredArg) :
    ∃ flags, processFields fs = Except.ok flags ∧
      ∀ a ∈ flags, a.kwargs.required = false := by
  induction fs with
  | nil => exact ⟨[], rfl, fun a ha => absurd ha (List.not_mem_nil a)⟩
  | cons g rest ih =>
      obtain ⟨hg1, v, hg2, hg3⟩ := h g (List.mem_cons_self g rest)
      obtain ⟨fl1, hfl1, hr1⟩ := processField_not_required g hg1 v hg2 hg3
      obtain ⟨fl2, hfl2, hr2⟩ := ih (fun f hf => h f (List.mem_cons_of_mem g hf))
      refine ⟨fl1 ++ fl2, ?_, ?_⟩
      · unfold processFields
        rw [hfl1, hfl2]
      · intro a ha
        rcases List.mem_append.mp ha with h' | h'
        · exact hr1 a h'
        · exact hr2 a h'

/-- When every field's init value is available, the no-argument
construction of the namespace succeeds. -/
theorem mkAttrs_ok (fs : List Field)
    (h : ∀ f ∈ fs, ∃ v, fieldInitValue f = Except.ok v) :
    ∃ a, mkAttrs fs = Except.ok a := by
  induction fs with
  | nil => exact ⟨[], rfl⟩
  | cons g rest ih =>
      obtain ⟨a2, ha2⟩ := ih (fun f hf => h f (List.mem_cons_of_mem g hf))
      obtain ⟨v, hv⟩ := h g (List.mem_cons_self g rest)
      unfold mkAttrs
      by_cases hcv : get_origin g.type = some TypeOrigin.classVar
      · rw [if_pos hcv]
        exact ⟨a2, ha2⟩
      · rw [if_neg hcv, hv, ha2]
        exact ⟨(g.name, v) :: a2, rfl⟩

/-- The engine returns the supplied instance unchanged on an empty token
sequence when no registered flag is mandatory. -/
theorem engineParseEmpty_ok (p : TypedArgumentParser) (ns : PyObj)
    (h : ∀ a ∈ allFlags p, a.kwargs.required = false) :
    engineParseEmpty p ns = Except.ok ns := by
  have hany : (allFlags p).any (fun a => a.kwargs.required) = false := by
    rw [List.any_eq_false]
    intro a hmem
    simp [h a hmem]
  unfold engineParseEmpty
  rw [hany]
  rfl

/-- When the field loop succeeds, get_parser succeeds, and its flag set
is the loop's registrations preceded by the automatic help flag when
that was requested (whether grouped or not). -/
theorem getParser_ok_allFlags (cls : NSClass) (gt : Option String) (ah : Bool)
    (flags : List AddedArg) (hpf : processFields cls.fields = Except.ok flags) :
    ∃ p, getParser cls gt ah = Except.ok p ∧
      allFlags p = (if ah then [helpArg] else []) ++ flags := by
  unfold getParser
  rw [hpf]
  cases gt with
  | none =>
      refine ⟨_, rfl, ?_⟩
      unfold allFlags
      simp
  | some t =>
      refine ⟨_, rfl, ?_⟩
      unfold allFlags
      simp

/-! Claim C8. -/

/-- C8 (confirmed): for a record whose fields are all plain-typed with
concrete, non-required defaults, parse_args on an empty token sequence
with no pre-built namespace succeeds and returns exactly the instance
built by the no-argument constructor from the declared defaults. -/
theorem c8_empty_parse_defaults (cls : NSClass) (gt : Option String) (ah : Bool)
    (h : ∀ f ∈ cls.fields, get_origin f.type = Option.none ∧
         ∃ v, fieldInitValue f = Except.ok v ∧ v ≠ Value.requiredArg) :
    ∃ inst, mkInstance cls = Except.ok inst ∧
      parseArgsOnEmpty cls gt ah = Except.ok (ParseOutcome.ok inst) := by
  obtain ⟨flags, hpf, hreq⟩ := processFields_not_required cls.fields h
  obtain ⟨a, ha⟩ := mkAttrs_ok cls.fields
    (fun f hf => ⟨(h f hf).2.choose, (h f hf).2.choose_spec.1⟩)
  obtain ⟨p, hgp, haf⟩ := getParser_ok_allFlags cls gt ah flags hpf
  have hinst : mkInstance cls = Except.ok { attrs := a } := by
    unfold mkInstance
    rw [ha]
  have hr : ∀ x ∈ allFlags p, x.kwargs.required = false := by
    intro x hmem
    rw [haf] at hmem
    rcases List.mem_append.mp hmem with h' | h'
    · cases ah with
      | true =>
          cases h' with
          | head => rfl
          | tail _ hh => cases hh
      | false => cases h'
    · exact hreq x h'
  refine ⟨{ attrs := a }, hinst, ?_⟩
  unfold parseArgsOnEmpty
  rw [hgp, hinst]
  dsimp only
  rw [engineParseEmpty_ok p { attrs := a } hr]

/-- A record with one int field and one bool field, both defaulted. -/
def c8cls : NSClass :=
  { name := "C8",
    fields := [{ name := "a", type := ArgType.scalar "int", default := Value.int 1,
                 default_factory := Option.none, metadata := [] },
               { name := "b", type := ArgType.scalar "bool", default := Value.bool false,
                 default_factory := Option.none, metadata := [] }],
    bases := [] }

/-- C8 witness: the empty-parse round trip evaluated on c8cls. -/
theorem c8_empty_parse_defaults_witness :
    ∃ inst, mkInstance c8cls = Except.ok inst ∧
      parseArgsOnEmpty c8cls Option.none false = Except.ok (ParseOutcome.ok inst) :=
  c8_empty_parse_defaults c8cls Option.none false (by
    intro f hf
    cases hf with
    | head => exact ⟨rfl, Value.int 1, rfl, fun h => Value.noConfusion h⟩
    | tail _ hf' =>
        cases hf' with
        | head => exact ⟨rfl, Value.bool false, rfl, fun h => Value.noConfusion h⟩
        | tail _ hf'' => cases hf'')

/-- For parsers with no directly registered flags, flattening their flag
sets is flattening the flag sets of their groups. -/
theorem flatten_allFlags_of_topless (ps : List TypedArgumentParser)
    (h : ∀ q ∈ ps, q.topArgs = []) :
    List.flatten (ps.map allFlags) =
      List.flatten ((List.flatten (ps.map (fun q => q.groups))).map (fun g => g.args)) := by
  induction ps with
  | nil => rfl
  | cons q rest ih =>
      have hq := h q (List.mem_cons_self q rest)
      have ihr := ih (fun r hr => h r (List.mem_cons_of_mem q hr))
      simp only [List.map_cons, List.flatten_cons, List.map_append, List.flatten_append]
      rw [ihr]
      unfold allFlags
      rw [hq]
      simp

/-! Claim C9. -/

/-- C9 (confirmed): fields declared on the record type itself contribute
nothing to the composed parser — the composition reads only the direct
bases, so the result is unchanged under any replacement of the record's
own field list, and the composed flag set is exactly the concatenation
of the typed bases' parsers' flags plus the optional help flag. -/
theorem c9_own_fields_never_flagged (cls : NSClass) (fs : List Field) (ah : Bool)
    (nameFn : String → String) :
    getParserGroupedByParents { cls with fields := fs } ah nameFn =
      getParserGroupedByParents cls ah nameFn ∧
    ∀ p, getParserGroupedByParents cls ah nameFn = Except.ok p →
      ∃ ps, getParsersOf nameFn (cls.bases.filter (fun b => b.isTypedNS)) = Except.ok ps ∧
        allFlags p = List.flatten (ps.map allFlags) ++ (if ah then [helpArg] else []) := by
  constructor
  · rfl
  · intro p hp
    unfold getParserGroupedByParents at hp
    cases hops : getParsersOf nameFn (cls.bases.filter (fun b => b.isTypedNS)) with
    | error e =>
        rw [hops] at hp
        exact Except.noConfusion hp
    | ok ps =>
        rw [hops] at hp
        obtain ⟨hq, _⟩ := getParsersOf_spec nameFn _ ps hops
        have htopless : ∀ q ∈ ps, q.topArgs = [] := fun q hqm => (hq q hqm).1
        have htop : List.flatten (ps.map (fun q => q.topArgs)) = [] := by
          refine List.flatten_eq_nil_iff.mpr ?_
          intro l hl
          obtain ⟨q, hqm, rfl⟩ := List.mem_map.mp hl
          exact htopless q hqm
        have hflat := flatten_allFlags_of_topless ps htopless
        refine ⟨ps, rfl, ?_⟩
        cases ah with
        | false =>
            dsimp only at hp
            rw [if_neg (by simp)] at hp
            injection hp with hp
            subst hp
            rw [hflat]
            unfold allFlags
            dsimp only
            rw [htop]
            simp
        | true =>
            dsimp only at hp
            rw [if_pos rfl] at hp
            injection hp with hp
            subst hp
            rw [hflat]
            unfold allFlags
            dsimp only
            rw [htop]
            simp [List.map_append, List.flatten_append]

/-- A typed base named ArgsB with one int field. -/
def c9base : BaseClass :=
  { name := "ArgsB", isTypedNS := true,
    fields := [{ name := "x", type := ArgType.scalar "int", default := Value.int 2,
                 default_factory := Option.none, metadata := [] }] }

/-- A child class of c9base with (so far) no own fields. -/
def c9cls : NSClass := { name := "C9", fields := [], bases := [c9base] }

/-- A field declared directly on the child record. -/
def c9ownfld : Field :=
  { name := "own", type := ArgType.scalar "int", default := Value.int 5,
    default_factory := Option.none, metadata := [] }

/-- The composed parser for c9cls with the help flag requested. -/
def c9p : TypedArgumentParser :=
  { nsClassName := "C9", add_help := false,
    topArgs := [],
    groups := [{ title := some "B",
                 args := [{ names := ["--x"],
                            kwargs := { help := some " default: 2",
                                        type := some (ArgType.scalar "int") } }] },
               { title := some "Help", args := [helpArg] }] }

/-- C9 witness: adding an own field changes nothing, and the composed
flags are exactly the base's flags plus the help flag. -/
theorem c9_own_fields_never_flagged_witness :
    getParserGroupedByParents { c9cls with fields := [c9ownfld] } true defaultGroupName =
      getParserGroupedByParents c9cls true defaultGroupName ∧
    ∃ ps, getParsersOf defaultGroupName (c9cls.bases.filter (fun b => b.isTypedNS)) =
        Except.ok ps ∧
      allFlags c9p = List.flatten (ps.map allFlags) ++ (if true then [helpArg] else []) :=
  ⟨(c9_own_fields_never_flagged c9cls [c9ownfld] true defaultGroupName).1,
   (c9_own_fields_never_flagged c9cls [c9ownfld] true defaultGroupName).2 c9p rfl⟩

/-! Claim C10. -/

/-- C10 (confirmed): the help and metavar metadata entries are read
through str conversion, and an entry whose string form is empty is not
attached: the registered flag's metavar keyword is exactly the nonempty
string form or absent, and (whenever the later default handling leaves
the help keyword alone, i.e. for required or boolean defaults) the same
holds for the help keyword. -/
theorem c10_metadata_stringified (f : Field)
    (hn : ¬(f.name = "h" ∨ f.name = "help"))
    (nm : List String) (kw : Kwargs)
    (hp : processField f = Except.ok [{ names := nm, kwargs := kw }]) :
    kw.metavar = (if pyStr (metaGet f.metadata "metavar") = "" then Option.none
                  else some (pyStr (metaGet f.metadata "metavar"))) ∧
    (∀ v, resolveDefault f = Except.ok v →
      (v = Value.requiredArg ∨ ∃ b, v = Value.bool b) →
      kw.help = (if pyStr (metaGet f.metadata "help") = "" then Option.none
                 else some (pyStr (metaGet f.metadata "help")))) := by
  by_cases hcv : get_origin f.type = some TypeOrigin.classVar
  · unfold processField at hp
    rw [if_neg hn, if_pos hcv] at hp
    injection hp with hp
    exact List.noConfusion hp
  · rw [processField_eq f hn hcv] at hp
    cases hres : resolveDefault f with
    | error e =>
        rw [hres] at hp
        exact Except.noConfusion hp
    | ok v0 =>
        rw [hres] at hp
        cases htk : typeKwargs f (metadataKwargs f) with
        | error e =>
            rw [htk] at hp
            exact Except.noConfusion hp
        | ok kw0 =>
            rw [htk] at hp
            injection hp with hp
            injection hp with h1 _
            injection h1 with _ h2
            obtain ⟨hpres1, hpres2, _, _⟩ := typeKwargs_preserves f _ kw0 htk
            constructor
            · rw [← h2, applyDefault_metavar, hpres2, metadataKwargs_metavar]
            · intro v hres' hcase
              injection hres' with hv
              subst hv
              rw [← h2, applyDefault_help_untouched v0 kw0 hcase, hpres1,
                metadataKwargs_help]

/-- A required field whose metavar metadata entry is the integer 3. -/
def c10fld : Field :=
  { name := "r", type := ArgType.scalar "str", default := Value.requiredArg,
    default_factory := Option.none, metadata := [("metavar", Value.int 3)] }

/-- The keyword arguments registered for c10fld. -/
def c10kw : Kwargs :=
  { metavar := some "3", type := some (ArgType.scalar "str"), required := true }

/-- C10 witness: metadata stringification evaluated on c10fld (an
integer metavar entry is attached as its string conversion; the absent
help entry stays absent). -/
theorem c10_metadata_stringified_witness :
    c10kw.metavar = (if pyStr (metaGet c10fld.metadata "metavar") = "" then Option.none
                     else some (pyStr (metaGet c10fld.metadata "metavar"))) ∧
    c10kw.help = (if pyStr (metaGet c10fld.metadata "help") = "" then Option.none
                  else some (pyStr (metaGet c10fld.metadata "help"))) := by
  have h := c10_metadata_stringified c10fld (by decide) ["--r"] c10kw rfl
  exact ⟨h.1, h.2 Value.requiredArg rfl (Or.inl rfl)⟩

end TypedArgparse
